import Mathlib

/-!
Shallow embedding of the search/filter/facet and pagination subsystem of the
marketplace catalog application, and proofs about the claims of its
specification.  The embedded code comes from:

* `src/services/searchService.ts`     (search, facets, price range)
* `src/services/paginationService.ts` (pagination math, page-number lists)
* `src/lib/validations.ts`            (zod schema, sanitizers, salvage parsing)
* the filter service (`FilterService`: URL ↔ filter-state conversions)

JavaScript numbers are modelled as integers (`ℤ`) for the pagination
calculator and as rationals (`ℚ`) for prices and query parameters; all
claim-relevant values are exact in both.  Strings are Lean `String`s, with
`trim` / `toLowerCase` / `slice` modelled character-wise on the underlying
character list (the core-library `String.trim`/`String.toLower` are
iterator-based and not evaluable by the kernel).
-/

/-! ### Character and string primitives -/

/-- ASCII lower-casing of one character, as done by `toLowerCase` /
Prisma's `mode: 'insensitive'` on the ASCII range. -/
def lowerChar (c : Char) : Char :=
  if 'A' ≤ c ∧ c ≤ 'Z' then Char.ofNat (c.toNat + 32) else c

/-- JS `String.prototype.toLowerCase`. -/
def lowerStr (s : String) : String := String.mk (s.data.map lowerChar)

/-- JS `String.prototype.trim`: strip whitespace from both ends. -/
def trimStr (s : String) : String :=
  String.mk (((s.data.dropWhile Char.isWhitespace).reverse.dropWhile
    Char.isWhitespace).reverse)

/-- The first list is a prefix of the second. -/
def isPrefixChars : List Char → List Char → Bool
  | [], _ => true
  | _ :: _, [] => false
  | a :: as, b :: bs => a == b && isPrefixChars as bs

/-- The first list occurs as a contiguous substring of the second. -/
def containsChars (needle hay : List Char) : Bool :=
  if isPrefixChars needle hay then true
  else
    match hay with
    | [] => false
    | _ :: t => containsChars needle t

/-- Prisma `contains` with `mode: 'insensitive'`: case-insensitive substring. -/
def containsCI (hay needle : String) : Bool :=
  containsChars (lowerStr needle).data (lowerStr hay).data

/-- Prisma `equals` with `mode: 'insensitive'`: case-insensitive equality. -/
def eqCI (a b : String) : Bool := lowerStr a == lowerStr b

/-! ### Pagination service (`paginationService.ts`)

All arguments are integers here; `Math.ceil` of the real quotient is the
ceiling of the rational quotient, and `Math.floor(maxVisible / 2)` is integer
floor division (Lean's `Int` division `/` rounds down for the positive
divisor 2). -/

/-- One entry of the page-number list: a page number or the `'ellipsis'`
marker. -/
inductive PageItem where
  | page (n : ℤ)
  | ellipsis
  deriving DecidableEq

/-- `for (let i = a; i <= b; i++) { push(i) }`: the integers `a, …, b`. -/
def intRange (a b : ℤ) : List ℤ :=
  (List.range (b + 1 - a).toNat).map (fun (i : ℕ) => a + (i : ℤ))

/-- Result record of `PaginationService.calculatePagination`. -/
structure PaginationMeta where
  totalCount : ℤ
  totalPages : ℤ
  currentPage : ℤ
  pageSize : ℤ
  hasNextPage : Bool
  hasPreviousPage : Bool
  startIndex : ℤ
  endIndex : ℤ
  isFirstPage : Bool
  isLastPage : Bool
  nextPage : Option ℤ
  previousPage : Option ℤ
  deriving DecidableEq

/-- `PaginationService.calculatePagination(totalCount, currentPage, pageSize)`. -/
def calculatePagination (totalCount currentPage pageSize : ℤ) : PaginationMeta :=
  let totalPages : ℤ := ⌈(totalCount : ℚ) / (pageSize : ℚ)⌉
  let hasNextPage := decide (currentPage < totalPages)
  let hasPreviousPage := decide (currentPage > 1)
  { totalCount := totalCount
    totalPages := totalPages
    currentPage := currentPage
    pageSize := pageSize
    hasNextPage := hasNextPage
    hasPreviousPage := hasPreviousPage
    startIndex := (currentPage - 1) * pageSize + 1
    endIndex := min (currentPage * pageSize) totalCount
    isFirstPage := decide (currentPage = 1)
    isLastPage := decide (currentPage = totalPages)
    nextPage := if hasNextPage then some (currentPage + 1) else none
    previousPage := if hasPreviousPage then some (currentPage - 1) else none }

/-- `PaginationService.generatePageNumbers(currentPage, totalPages, maxVisible)`. -/
def generatePageNumbers (currentPage totalPages : ℤ) (maxVisible : ℤ := 7) :
    List PageItem :=
  if totalPages ≤ maxVisible then
    (intRange 1 totalPages).map PageItem.page
  else
    -- `halfVisible = Math.floor(maxVisible / 2)` is written `maxVisible / 2` below
    [PageItem.page 1]
      ++ (if currentPage ≤ maxVisible / 2 + 2 then
            -- show pages from the start
            ((intRange 2 (min (maxVisible - 1) (totalPages - 1))).map PageItem.page)
              ++ (if maxVisible - 1 < totalPages then [PageItem.ellipsis] else [])
          else if totalPages - maxVisible / 2 - 1 ≤ currentPage then
            -- show pages from the end
            (if maxVisible - 1 < totalPages then [PageItem.ellipsis] else [])
              ++ ((intRange (max (totalPages - maxVisible + 2) 2)
                  (totalPages - 1)).map PageItem.page)
          else
            -- show pages around the current one
            [PageItem.ellipsis]
              ++ ((intRange (currentPage - maxVisible / 2 + 1)
                  (currentPage + maxVisible / 2 - 1)).map PageItem.page)
              ++ [PageItem.ellipsis])
      ++ (if 1 < totalPages then [PageItem.page totalPages] else [])

/-- `PaginationService.validatePageNumber(page, totalPages)`. -/
def validatePageNumber (page totalPages : ℤ) : ℤ :=
  if page < 1 then 1
  else if page > totalPages ∧ totalPages > 0 then totalPages
  else page

/-- `PaginationService.calculateOffset(page, pageSize)`. -/
def calculateOffset (page pageSize : ℤ) : ℤ := (page - 1) * pageSize

/-! ### Helper lemmas about `intRange` and page lists -/

theorem intRange_ne_nil {a b : ℤ} (hab : a ≤ b) : intRange a b ≠ [] := by
  have h : (b + 1 - a).toNat ≠ 0 := by omega
  unfold intRange
  intro hc
  exact h (List.range_eq_nil.mp (List.map_eq_nil_iff.mp hc))

/-- Detects two adjacent `'ellipsis'` markers in a page-number list. -/
def adjacentEllipses : List PageItem → Bool
  | PageItem.ellipsis :: PageItem.ellipsis :: _ => true
  | _ :: rest => adjacentEllipses rest
  | [] => false

/-- Detects an `'ellipsis'` whose two flanking page numbers differ by exactly
two, i.e. an ellipsis standing for exactly one hidden page. -/
def hidesSinglePage : List PageItem → Bool
  | PageItem.page a :: PageItem.ellipsis :: PageItem.page b :: rest =>
      b == a + 2 || hidesSinglePage (PageItem.ellipsis :: PageItem.page b :: rest)
  | _ :: rest => hidesSinglePage rest
  | [] => false

theorem adjacentEllipses_eq_false_iff :
    ∀ l : List PageItem, adjacentEllipses l = false ↔
      List.Chain' (fun a b => a ≠ PageItem.ellipsis ∨ b ≠ PageItem.ellipsis) l
  | [] => by simp [adjacentEllipses]
  | [a] => by cases a <;> simp [adjacentEllipses]
  | a :: b :: t => by
      have ih := adjacentEllipses_eq_false_iff (b :: t)
      cases a <;> cases b <;>
        simp_all [adjacentEllipses, List.chain'_cons]

theorem chainR_map_page (l : List ℤ) :
    List.Chain' (fun a b => a ≠ PageItem.ellipsis ∨ b ≠ PageItem.ellipsis)
      (l.map PageItem.page) := by
  induction l with
  | nil => simp
  | cons a t ih =>
    cases t with
    | nil => simp
    | cons b t' =>
      simp only [List.map_cons, List.chain'_cons] at ih ⊢
      exact ⟨Or.inl (by simp), ih⟩

theorem getLast_map_page_ne (l : List ℤ) :
    ∀ x ∈ (l.map PageItem.page).getLast?, x ≠ PageItem.ellipsis := by
  intro x hx
  rw [List.getLast?_map] at hx
  rcases Option.map_eq_some'.mp (Option.mem_def.mp hx) with ⟨a, _, rfl⟩
  simp

theorem head_map_page_ne (l : List ℤ) :
    ∀ x ∈ (l.map PageItem.page).head?, x ≠ PageItem.ellipsis := by
  intro x hx
  rw [List.head?_map] at hx
  rcases Option.map_eq_some'.mp (Option.mem_def.mp hx) with ⟨a, _, rfl⟩
  simp

theorem chainR_append {l₁ l₂ : List PageItem}
    (c1 : List.Chain' (fun a b => a ≠ PageItem.ellipsis ∨ b ≠ PageItem.ellipsis) l₁)
    (c2 : List.Chain' (fun a b => a ≠ PageItem.ellipsis ∨ b ≠ PageItem.ellipsis) l₂)
    (h : (∀ x ∈ l₁.getLast?, x ≠ PageItem.ellipsis)
       ∨ (∀ y ∈ l₂.head?, y ≠ PageItem.ellipsis)) :
    List.Chain' (fun a b => a ≠ PageItem.ellipsis ∨ b ≠ PageItem.ellipsis)
      (l₁ ++ l₂) := by
  rw [List.chain'_append]
  refine ⟨c1, c2, fun x hx y hy => ?_⟩
  cases h with
  | inl h => exact Or.inl (h x hx)
  | inr h => exact Or.inr (h y hy)

/-- `Math.ceil(t / s)` over the rationals agrees with the integer formula
`(t + s - 1) / s` (floor division) for a positive page size. -/
theorem ceil_intDiv (t s : ℤ) (hs : 1 ≤ s) :
    (⌈(t : ℚ) / (s : ℚ)⌉ : ℤ) = (t + s - 1) / s := by
  have hs0 : (0:ℤ) < s := by omega
  have hsQ : (0:ℚ) < (s:ℚ) := by exact_mod_cast hs0
  have hdm := Int.ediv_add_emod (t + s - 1) s
  have hr0 : 0 ≤ (t + s - 1) % s := Int.emod_nonneg _ (by omega)
  have hrs : (t + s - 1) % s < s := Int.emod_lt_of_pos _ hs0
  have key1 : ((t + s - 1) / s - 1) * s < t := by nlinarith
  have key2 : t ≤ ((t + s - 1) / s) * s := by nlinarith
  rw [Int.ceil_eq_iff]
  constructor
  · rw [lt_div_iff₀ hsQ]
    exact_mod_cast key1
  · rw [div_le_iff₀ hsQ]
    exact_mod_cast key2

/-- C6: for every `totalCount ≥ 0` and `pageSize ≥ 1`,
`calculatePagination(totalCount, currentPage, pageSize).totalPages` is the
integer ceiling of `totalCount / pageSize` (written with the standard integer
ceiling-division formula), and `totalCount = 0` yields `totalPages = 0`. -/
theorem calculatePagination_totalPages_ceil (totalCount currentPage pageSize : ℤ)
    (ht : 0 ≤ totalCount) (hs : 1 ≤ pageSize) :
    (calculatePagination totalCount currentPage pageSize).totalPages
        = (totalCount + pageSize - 1) / pageSize
    ∧ (totalCount = 0 →
        (calculatePagination totalCount currentPage pageSize).totalPages = 0) := by
  have hproj : (calculatePagination totalCount currentPage pageSize).totalPages
      = ⌈(totalCount : ℚ) / (pageSize : ℚ)⌉ := rfl
  have h := ceil_intDiv totalCount pageSize hs
  refine ⟨by rw [hproj, h], fun h0 => ?_⟩
  rw [hproj, h, h0]
  have he : ((0 : ℤ) + pageSize - 1) = pageSize - 1 := by ring
  rw [he]
  exact Int.ediv_eq_zero_of_lt (by omega) (by omega)

theorem calculatePagination_totalPages_ceil_witness :
    0 ≤ (25:ℤ) ∧ 1 ≤ (20:ℤ)
    ∧ ((calculatePagination 25 2 20).totalPages = (25 + 20 - 1) / 20
      ∧ ((25:ℤ) = 0 → (calculatePagination 25 2 20).totalPages = 0)) :=
  ⟨by decide, by decide, calculatePagination_totalPages_ceil 25 2 20 (by decide) (by decide)⟩

/-- C5 counterexample: with `totalPages = 0` and `page = 5`,
`validatePageNumber` returns `5` — not `1` as the claim states — because the
guard `totalPages > 0` disables the upper clamp. -/
theorem validatePageNumber_totalPages_zero_cex :
    validatePageNumber 5 0 = 5 ∧ validatePageNumber 5 0 ≠ 1 := by decide

/-- C5 amended: when `totalPages ≥ 1`, `validatePageNumber` clamps the page
into `[1, totalPages]` (returning `1` when `page < 1` and `totalPages` when
`page > totalPages`); when `totalPages = 0` it returns `1` for `page < 1` and
otherwise returns `page` unchanged (i.e. `max 1 page`), not `1`. -/
theorem validatePageNumber_clamps (page totalPages : ℤ) :
    (1 ≤ totalPages →
      validatePageNumber page totalPages = max 1 (min page totalPages))
    ∧ (totalPages = 0 → validatePageNumber page totalPages = max 1 page) := by
  unfold validatePageNumber
  constructor <;> intro h <;> split_ifs <;> omega

theorem validatePageNumber_clamps_witness :
    1 ≤ (3:ℤ) ∧ validatePageNumber 7 3 = max 1 (min 7 3) :=
  ⟨by decide, (validatePageNumber_clamps 7 3).1 (by decide)⟩

/-- C8: whenever `totalPages ≤ maxVisible`, `generatePageNumbers` returns
exactly the pages `1..totalPages` with no ellipsis; and
`generatePageNumbers(1, 20, 7)` is the exact sequence
`[1, 2, 3, 4, 5, 6, 'ellipsis', 20]`. -/
theorem generatePageNumbers_all_pages_when_small :
    (∀ currentPage totalPages maxVisible : ℤ, totalPages ≤ maxVisible →
      generatePageNumbers currentPage totalPages maxVisible
          = (intRange 1 totalPages).map PageItem.page
      ∧ PageItem.ellipsis ∉ generatePageNumbers currentPage totalPages maxVisible)
    ∧ generatePageNumbers 1 20 7
        = [PageItem.page 1, PageItem.page 2, PageItem.page 3, PageItem.page 4,
           PageItem.page 5, PageItem.page 6, PageItem.ellipsis, PageItem.page 20] := by
  constructor
  · intro currentPage totalPages maxVisible h
    have hgen : generatePageNumbers currentPage totalPages maxVisible
        = (intRange 1 totalPages).map PageItem.page := by
      rw [generatePageNumbers, if_pos h]
    refine ⟨hgen, ?_⟩
    rw [hgen]
    simp
  · decide

theorem generatePageNumbers_all_pages_when_small_witness :
    (3:ℤ) ≤ 7 ∧ generatePageNumbers 5 3 7 = (intRange 1 3).map PageItem.page :=
  ⟨by decide, (generatePageNumbers_all_pages_when_small.1 5 3 7 (by decide)).1⟩

/-- C7 counterexample: at `currentPage = 1, totalPages = 8, maxVisible = 7`
(all within the claim's preconditions) the generated sequence is
`[1, 2, 3, 4, 5, 6, 'ellipsis', 8]`, whose ellipsis hides exactly the single
page 7, contradicting the claim that such an ellipsis never occurs. -/
theorem generatePageNumbers_hides_single_page_cex :
    1 ≤ (1:ℤ) ∧ (1:ℤ) ≤ 8 ∧ 3 ≤ (7:ℤ)
    ∧ generatePageNumbers 1 8 7
        = [PageItem.page 1, PageItem.page 2, PageItem.page 3, PageItem.page 4,
           PageItem.page 5, PageItem.page 6, PageItem.ellipsis, PageItem.page 8]
    ∧ hidesSinglePage (generatePageNumbers 1 8 7) = true := by decide

/-- C7 amended: for all `1 ≤ currentPage ≤ totalPages` and `maxVisible ≥ 3`
the page-number list never contains two consecutive ellipsis markers; the
claim's second half (an ellipsis never hides exactly one page) is false at the
window boundary, see the counterexample. -/
theorem generatePageNumbers_no_adjacent_ellipses (cp tp mv : ℤ)
    (h1 : 1 ≤ cp) (h2 : cp ≤ tp) (h3 : 3 ≤ mv) :
    adjacentEllipses (generatePageNumbers cp tp mv) = false := by
  rw [adjacentEllipses_eq_false_iff]
  rw [generatePageNumbers]
  by_cases hsmall : tp ≤ mv
  · rw [if_pos hsmall]
    exact chainR_map_page _
  · rw [if_neg hsmall]
    push_neg at hsmall
    have hlast : (1:ℤ) < tp := by omega
    have hmid : mv - 1 < tp := by omega
    rw [if_pos hlast, if_pos hmid]
    by_cases hA : cp ≤ mv / 2 + 2
    · rw [if_pos hA]
      have hre : [PageItem.page 1]
          ++ ((intRange 2 (min (mv - 1) (tp - 1))).map PageItem.page
              ++ [PageItem.ellipsis])
          ++ [PageItem.page tp]
          = ((1 :: intRange 2 (min (mv - 1) (tp - 1))).map PageItem.page)
              ++ [PageItem.ellipsis, PageItem.page tp] := by simp
      rw [hre]
      refine chainR_append (chainR_map_page _) ?_ (Or.inl (getLast_map_page_ne _))
      rw [List.chain'_cons]
      exact ⟨Or.inr (by simp), List.chain'_singleton _⟩
    · rw [if_neg hA]
      by_cases hB : tp - mv / 2 - 1 ≤ cp
      · rw [if_pos hB]
        have hre : [PageItem.page 1]
            ++ ([PageItem.ellipsis]
                ++ (intRange (max (tp - mv + 2) 2) (tp - 1)).map PageItem.page)
            ++ [PageItem.page tp]
            = [PageItem.page 1, PageItem.ellipsis]
                ++ ((intRange (max (tp - mv + 2) 2) (tp - 1)) ++ [tp]).map
                  PageItem.page := by simp
        rw [hre]
        refine chainR_append ?_ (chainR_map_page _) (Or.inr (head_map_page_ne _))
        rw [List.chain'_cons]
        exact ⟨Or.inl (by simp), List.chain'_singleton _⟩
      · rw [if_neg hB]
        have hw : cp - mv / 2 + 1 ≤ cp + mv / 2 - 1 := by omega
        rcases List.exists_cons_of_ne_nil (intRange_ne_nil hw) with ⟨c, w', hw'⟩
        rw [hw']
        have hre : [PageItem.page 1]
            ++ ([PageItem.ellipsis] ++ (c :: w').map PageItem.page
                ++ [PageItem.ellipsis])
            ++ [PageItem.page tp]
            = [PageItem.page 1, PageItem.ellipsis]
                ++ ((c :: w').map PageItem.page
                    ++ [PageItem.ellipsis, PageItem.page tp]) := by simp
        rw [hre]
        refine chainR_append ?_ ?_ (Or.inr ?_)
        · rw [List.chain'_cons]
          exact ⟨Or.inl (by simp), List.chain'_singleton _⟩
        · refine chainR_append (chainR_map_page _) ?_ (Or.inl (getLast_map_page_ne _))
          rw [List.chain'_cons]
          exact ⟨Or.inr (by simp), List.chain'_singleton _⟩
        · intro y hy
          simp only [List.map_cons, List.cons_append, List.head?_cons,
            Option.mem_def, Option.some.injEq] at hy
          rw [← hy]
          simp

theorem generatePageNumbers_no_adjacent_ellipses_witness :
    1 ≤ (10:ℤ) ∧ (10:ℤ) ≤ 20 ∧ 3 ≤ (7:ℤ)
    ∧ adjacentEllipses (generatePageNumbers 10 20 7) = false :=
  ⟨by decide, by decide, by decide,
    generatePageNumbers_no_adjacent_ellipses 10 20 7 (by decide) (by decide) (by decide)⟩

/-! ### Validation layer (`lib/validations.ts`)

`SearchParamsSchema` and `processSearchParams`.  URL decoding is modelled as
the identity (inputs are taken post-decoding), and JS `Number(...)` coercion
is modelled by `jsNumber` on decimal literals. -/

/-- The validated `SearchParams` produced by `SearchParamsSchema`: `page` has
a zod default of 1; `limit` is `optional()` wrapped around its default, so an
absent limit stays absent after parsing. -/
structure SearchParams where
  q : Option String := none
  category : Option String := none
  location : Option String := none
  min : Option ℚ := none
  max : Option ℚ := none
  page : ℚ := 1
  limit : Option ℚ := none
  deriving DecidableEq

/-- `sanitizeString(input, maxLength = 1000)`: trim, then hard-truncate. -/
def sanitizeString (input : String) (maxLength : ℕ := 1000) : String :=
  String.mk ((trimStr input).data.take maxLength)

/-- `sanitizeNumber(input, min, max)`: clamp into the range,
`Math.max(min, Math.min(max, num))`.  (The NaN-throw branch cannot arise for
the typed rational inputs of this model.) -/
def sanitizeNumber (input : ℚ) (lo hi : ℚ) : ℚ := max lo (min hi input)

/-- `sanitizeSearchQuery(query)`: trim, strip the five characters
`<  >  "  '  &` (ASCII 60, 62, 34, 39, 38), cap at 200 characters. -/
def sanitizeSearchQuery (query : String) : String :=
  String.mk (((trimStr query).data.filter
    (fun c => !(c.toNat == 60 || c.toNat == 62 || c.toNat == 34
      || c.toNat == 39 || c.toNat == 38))).take 200)

/-- Value of a digit string. -/
def digitsToNat (ds : List Char) : ℕ :=
  ds.foldl (fun n c => 10 * n + (c.toNat - 48)) 0

/-- JS `Number(string)` coercion, modelled on signed decimal literals: the
empty (or whitespace-only) string coerces to 0; `"12"`, `"12."`, `".5"`,
`"3.25"` with an optional leading sign coerce to the exact rational value;
anything else — including the hex and exponent forms JS also accepts — is
treated as NaN, i.e. `none`. -/
def jsNumber (s : String) : Option ℚ :=
  match (trimStr s).data with
  | [] => some 0
  | cs =>
    let signNeg : Bool := cs.head? == some '-'
    let rest := if cs.head? == some '-' || cs.head? == some '+' then cs.tail else cs
    let intPart := rest.takeWhile Char.isDigit
    match rest.dropWhile Char.isDigit with
    | [] =>
      if intPart.isEmpty then none
      else some (if signNeg then -(digitsToNat intPart : ℚ)
        else (digitsToNat intPart : ℚ))
    | '.' :: frac =>
      if frac.all Char.isDigit ∧ ¬(intPart.isEmpty ∧ frac.isEmpty) then
        some (if signNeg
          then -((digitsToNat (intPart ++ frac) : ℚ) / ((10:ℚ) ^ frac.length))
          else (digitsToNat (intPart ++ frac) : ℚ) / ((10:ℚ) ^ frac.length))
      else none
    | _ => none

/-- Raw query-string parameters: one optional string per recognised key
(repeated keys already collapsed to their first value, values URL-decoded). -/
structure RawParams where
  q : Option String := none
  category : Option String := none
  location : Option String := none
  min : Option String := none
  max : Option String := none
  page : Option String := none
  limit : Option String := none
  deriving DecidableEq

/-- The per-key preprocessing loop of `processSearchParams` (its
object-record branch, the one the app's pages use): falsy (absent or
empty-string) values are skipped, the rest are `sanitizeString`-ed after URL
decoding (decoding itself is modelled as the identity). -/
def prepValue (v : Option String) : Option String :=
  match v with
  | none => none
  | some s => if s = "" then none else some (sanitizeString s)

/-- The whole preprocessing loop applied to every recognised key. -/
def prepRaw (r : RawParams) : RawParams :=
  { q := prepValue r.q
    category := prepValue r.category
    location := prepValue r.location
    min := prepValue r.min
    max := prepValue r.max
    page := prepValue r.page
    limit := prepValue r.limit }

/-- `z.string().trim().max(maxLen).optional()`: absent passes through, a
present string is trimmed and its trimmed length checked. -/
def zodString (v : Option String) (maxLen : ℕ) : Option (Option String) :=
  match v with
  | none => some none
  | some s =>
    let t := trimStr s
    if t.length ≤ maxLen then some (some t) else none

/-- `z.coerce.number().min(lo).max(hi).optional()` on an optional string:
coercion via `Number`; NaN or an out-of-range value fails. -/
def zodNumOfString (v : Option String) (lo hi : ℚ) : Option (Option ℚ) :=
  match v with
  | none => some none
  | some s =>
    match jsNumber s with
    | none => none
    | some x => if lo ≤ x ∧ x ≤ hi then some (some x) else none

/-- The same schema field applied to an already-numeric value
(`Number` of a number is itself). -/
def zodNumOfNum (v : Option ℚ) (lo hi : ℚ) : Option (Option ℚ) :=
  match v with
  | none => some none
  | some x => if lo ≤ x ∧ x ≤ hi then some (some x) else none

/-- `page: z.coerce.number().min(1).max(1000).default(1)` on a string value. -/
def zodPageOfString (v : Option String) : Option ℚ :=
  match v with
  | none => some 1
  | some s =>
    match jsNumber s with
    | none => none
    | some x => if 1 ≤ x ∧ x ≤ 1000 then some x else none

/-- The `page` field applied to an already-numeric value. -/
def zodPageOfNum (v : Option ℚ) : Option ℚ :=
  match v with
  | none => some 1
  | some x => if 1 ≤ x ∧ x ≤ 1000 then some x else none

/-- The schema's `refine` clause: `min ≤ max` whenever both are present. -/
def minMaxOk (m M : Option ℚ) : Bool :=
  match m, M with
  | some a, some b => decide (a ≤ b)
  | _, _ => true

/-- `SearchParamsSchema.safeParse` on a record of string parameter values
(`none` = validation failure, `some p` = success). -/
def safeParseStrings (r : RawParams) : Option SearchParams := do
  let q ← zodString r.q 200
  let category ← zodString r.category 100
  let mn ← zodNumOfString r.min 0 1000000
  let mx ← zodNumOfString r.max 0 1000000
  let location ← zodString r.location 100
  let page ← zodPageOfString r.page
  let limit ← zodNumOfString r.limit 1 100
  if minMaxOk mn mx then
    some { q := q, category := category, location := location,
           min := mn, max := mx, page := page, limit := limit }
  else none

/-- The record of fields the salvage step tries to keep (`limit` is never
salvaged). -/
structure Salvaged where
  q : Option String := none
  category : Option String := none
  location : Option String := none
  min : Option ℚ := none
  max : Option ℚ := none
  page : Option ℚ := none
  deriving DecidableEq

/-- The salvage step of `processSearchParams`: keep truthy strings, and keep
each numeric field whose value coerces to a number inside its range
(`params.min && !isNaN(Number(params.min))` then the range check). -/
def salvage (params : RawParams) : Salvaged :=
  { q := match params.q with
      | some s => if s ≠ "" then some s else none
      | none => none
    category := match params.category with
      | some s => if s ≠ "" then some s else none
      | none => none
    location := match params.location with
      | some s => if s ≠ "" then some s else none
      | none => none
    min := match params.min with
      | some s =>
        if s ≠ "" then
          match jsNumber s with
          | some x => if 0 ≤ x ∧ x ≤ 1000000 then some x else none
          | none => none
        else none
      | none => none
    max := match params.max with
      | some s =>
        if s ≠ "" then
          match jsNumber s with
          | some x => if 0 ≤ x ∧ x ≤ 1000000 then some x else none
          | none => none
        else none
      | none => none
    page := match params.page with
      | some s =>
        if s ≠ "" then
          match jsNumber s with
          | some x => if 1 ≤ x ∧ x ≤ 1000 then some x else none
          | none => none
        else none
      | none => none }

/-- `SearchParamsSchema.safeParse` on the salvaged record: string fields are
re-validated, numeric fields are already numbers; the absent `limit` parses to
an absent limit and an absent `page` takes the default 1. -/
def safeParseSalvaged (s : Salvaged) : Option SearchParams := do
  let q ← zodString s.q 200
  let category ← zodString s.category 100
  let mn ← zodNumOfNum s.min 0 1000000
  let mx ← zodNumOfNum s.max 0 1000000
  let location ← zodString s.location 100
  let page ← zodPageOfNum s.page
  if minMaxOk mn mx then
    some { q := q, category := category, location := location,
           min := mn, max := mx, page := page, limit := none }
  else none

/-- `processSearchParams`: preprocess the raw keys, try the strict parse, then
the per-field salvage parse, then the hard default `{page: 1, limit: 20}`.
All JS exceptions are caught inside the function (modelled by totality). -/
def processSearchParams (r : RawParams) : SearchParams :=
  let params := prepRaw r
  match safeParseStrings params with
  | some ok => ok
  | none =>
    match safeParseSalvaged (salvage params) with
    | some ok => ok
    | none => { page := 1, limit := some 20 }

/-! ### Lemmas about the two-tier parse -/

theorem safeParseStrings_min_gt_max (r : RawParams) {mv Mv : ℚ}
    (hmin : zodNumOfString r.min 0 1000000 = some (some mv))
    (hmax : zodNumOfString r.max 0 1000000 = some (some Mv))
    (hlt : Mv < mv) : safeParseStrings r = none := by
  have hguard : minMaxOk (some mv) (some Mv) = false := by
    simp only [minMaxOk, decide_eq_false_iff_not]
    exact not_le.mpr hlt
  unfold safeParseStrings
  simp only [hmin, hmax, Option.some_bind]
  cases zodString r.q 200 <;>
    cases zodString r.category 100 <;>
      cases zodString r.location 100 <;>
        cases zodPageOfString r.page <;>
          cases zodNumOfString r.limit 1 100 <;>
            simp [hguard]

theorem safeParseSalvaged_min_gt_max (s : Salvaged) {mv Mv : ℚ}
    (hmin : s.min = some mv) (h0 : 0 ≤ mv) (h1 : mv ≤ 1000000)
    (hmax : s.max = some Mv) (h2 : 0 ≤ Mv) (h3 : Mv ≤ 1000000)
    (hlt : Mv < mv) : safeParseSalvaged s = none := by
  have hguard : minMaxOk (some mv) (some Mv) = false := by
    simp only [minMaxOk, decide_eq_false_iff_not]
    exact not_le.mpr hlt
  have hmin' : zodNumOfNum s.min 0 1000000 = some (some mv) := by
    rw [hmin]
    simp [zodNumOfNum, h0, h1]
  have hmax' : zodNumOfNum s.max 0 1000000 = some (some Mv) := by
    rw [hmax]
    simp [zodNumOfNum, h2, h3]
  unfold safeParseSalvaged
  simp only [hmin', hmax', Option.some_bind]
  cases zodString s.q 200 <;>
    cases zodString s.category 100 <;>
      cases zodString s.location 100 <;>
        cases zodPageOfNum s.page <;>
          simp [hguard]

/-- C3 corrected: if the (preprocessed) `min` and `max` values are non-empty
strings that coerce to numbers in `[0, 1000000]` with `min > max`, both the
strict parse and the salvage parse fail on the `min ≤ max` refinement, and
`processSearchParams` returns the hard default `{page: 1, limit: 20}` with no
filter fields set (and, being a total function, never throws). -/
theorem processSearchParams_min_gt_max (r : RawParams) (sm sM : String) (mv Mv : ℚ)
    (hm : (prepRaw r).min = some sm) (hm' : sm ≠ "")
    (hmv : jsNumber sm = some mv) (hmv0 : 0 ≤ mv) (hmv1 : mv ≤ 1000000)
    (hM : (prepRaw r).max = some sM) (hM' : sM ≠ "")
    (hMv : jsNumber sM = some Mv) (hMv0 : 0 ≤ Mv) (hMv1 : Mv ≤ 1000000)
    (hlt : Mv < mv) :
    processSearchParams r = { page := 1, limit := some 20 } := by
  have hminS : zodNumOfString (prepRaw r).min 0 1000000 = some (some mv) := by
    rw [hm]
    simp [zodNumOfString, hmv, hmv0, hmv1]
  have hmaxS : zodNumOfString (prepRaw r).max 0 1000000 = some (some Mv) := by
    rw [hM]
    simp [zodNumOfString, hMv, hMv0, hMv1]
  have h1 := safeParseStrings_min_gt_max (prepRaw r) hminS hmaxS hlt
  have hsalvmin : (salvage (prepRaw r)).min = some mv := by
    simp [salvage, hm, hm', hmv, hmv0, hmv1]
  have hsalvmax : (salvage (prepRaw r)).max = some Mv := by
    simp [salvage, hM, hM', hMv, hMv0, hMv1]
  have h2 := safeParseSalvaged_min_gt_max (salvage (prepRaw r))
    hsalvmin hmv0 hmv1 hsalvmax hMv0 hMv1 hlt
  unfold processSearchParams
  simp only [h1, h2]

theorem processSearchParams_min_gt_max_witness :
    (prepRaw { min := some "500", max := some "100" }).min = some "500"
    ∧ jsNumber "500" = some 500
    ∧ (prepRaw { min := some "500", max := some "100" }).max = some "100"
    ∧ jsNumber "100" = some 100
    ∧ (100:ℚ) < 500
    ∧ processSearchParams { min := some "500", max := some "100" }
        = { page := 1, limit := some 20 } :=
  ⟨by decide, by decide, by decide, by decide, by decide,
    processSearchParams_min_gt_max { min := some "500", max := some "100" }
      "500" "100" 500 100 (by decide) (by decide) (by decide) (by decide)
      (by decide) (by decide) (by decide) (by decide) (by decide) (by decide)
      (by decide)⟩

/-- C3 counterexample: with raw input `min = "5"`, `max = " "` both fields
coerce to numbers in range (`Number(" ")` is `0`) and `min > max`, yet
`processSearchParams` does not fall back to the hard default: the strict parse
fails, but the salvage step drops the falsy `" "`-valued `max` while keeping
`min`, and the salvage parse then succeeds with `{min: 5, page: 1}`. -/
theorem processSearchParams_min_gt_max_cex :
    jsNumber ((prepRaw { min := some "5", max := some " " }).min.getD "")
        = some 5
    ∧ jsNumber ((prepRaw { min := some "5", max := some " " }).max.getD "")
        = some 0
    ∧ (0:ℚ) ≤ 5 ∧ (5:ℚ) ≤ 1000000 ∧ (0:ℚ) ≤ 0 ∧ (0:ℚ) ≤ 1000000 ∧ (0:ℚ) < 5
    ∧ processSearchParams { min := some "5", max := some " " }
        = { min := some 5, page := 1 }
    ∧ processSearchParams { min := some "5", max := some " " }
        ≠ { page := 1, limit := some 20 } := by decide

theorem safeParseStrings_page_fail (r : RawParams)
    (hp : zodPageOfString r.page = none) : safeParseStrings r = none := by
  unfold safeParseStrings
  simp only [hp]
  cases zodString r.q 200 <;>
    cases zodString r.category 100 <;>
      cases zodNumOfString r.min 0 1000000 <;>
        cases zodNumOfString r.max 0 1000000 <;>
          cases zodString r.location 100 <;>
            simp

theorem safeParseStrings_min_fail (r : RawParams)
    (hp : zodNumOfString r.min 0 1000000 = none) : safeParseStrings r = none := by
  unfold safeParseStrings
  simp only [hp]
  cases zodString r.q 200 <;>
    cases zodString r.category 100 <;>
      simp

theorem safeParseSalvaged_page_none (s : Salvaged) (out : SearchParams)
    (hsp : s.page = none) (h : safeParseSalvaged s = some out) : out.page = 1 := by
  unfold safeParseSalvaged at h
  simp only [hsp] at h
  rcases Option.bind_eq_some.mp h with ⟨q, hq, h⟩
  rcases Option.bind_eq_some.mp h with ⟨c, hc, h⟩
  rcases Option.bind_eq_some.mp h with ⟨mn, hmn, h⟩
  rcases Option.bind_eq_some.mp h with ⟨mx, hmx, h⟩
  rcases Option.bind_eq_some.mp h with ⟨loc, hloc, h⟩
  rcases Option.bind_eq_some.mp h with ⟨page, hpage, h⟩
  simp only [zodPageOfNum, Option.some.injEq] at hpage
  split at h
  · cases h
    simp [← hpage]
  · cases h

theorem safeParseSalvaged_min_none (s : Salvaged) (out : SearchParams)
    (hsm : s.min = none) (h : safeParseSalvaged s = some out) : out.min = none := by
  unfold safeParseSalvaged at h
  simp only [hsm] at h
  rcases Option.bind_eq_some.mp h with ⟨q, hq, h⟩
  rcases Option.bind_eq_some.mp h with ⟨c, hc, h⟩
  rcases Option.bind_eq_some.mp h with ⟨mn, hmn, h⟩
  rcases Option.bind_eq_some.mp h with ⟨mx, hmx, h⟩
  rcases Option.bind_eq_some.mp h with ⟨loc, hloc, h⟩
  rcases Option.bind_eq_some.mp h with ⟨page, hpage, h⟩
  simp only [zodNumOfNum, Option.some.injEq] at hmn
  split at h
  · cases h
    simp [← hmn]
  · cases h

theorem salvage_page_none (params : RawParams) {sp : String} {pv : ℚ}
    (hp : params.page = some sp) (hpv : jsNumber sp = some pv)
    (hrange : ¬ (1 ≤ pv ∧ pv ≤ 1000)) : (salvage params).page = none := by
  by_cases hsp : sp = ""
  · subst hsp
    simp [salvage, hp]
  · simp [salvage, hp, hsp, hpv, hrange]

theorem salvage_min_none (params : RawParams) {sm : String} {mv : ℚ}
    (hm : params.min = some sm) (hmv : jsNumber sm = some mv)
    (hrange : ¬ (0 ≤ mv ∧ mv ≤ 1000000)) : (salvage params).min = none := by
  by_cases hsm : sm = ""
  · subst hsm
    simp [salvage, hm]
  · simp [salvage, hm, hsm, hmv, hrange]

/-- C4 corrected: out-of-range numeric parameters are dropped by the salvage
tier and fall back to their defaults — they are never clamped into range: an
out-of-range `page` value yields the default `page = 1`, and an out-of-range
`min` value is removed entirely from the resulting `SearchParams`. -/
theorem processSearchParams_out_of_range_drops (r : RawParams) :
    (∀ sp pv, (prepRaw r).page = some sp → jsNumber sp = some pv →
        ¬ (1 ≤ pv ∧ pv ≤ 1000) → (processSearchParams r).page = 1)
    ∧ (∀ sm mv, (prepRaw r).min = some sm → jsNumber sm = some mv →
        ¬ (0 ≤ mv ∧ mv ≤ 1000000) → (processSearchParams r).min = none) := by
  constructor
  · intro sp pv hp hpv hrange
    have h1 : safeParseStrings (prepRaw r) = none := by
      apply safeParseStrings_page_fail
      simp [zodPageOfString, hp, hpv, hrange]
    have h2 : (salvage (prepRaw r)).page = none :=
      salvage_page_none (prepRaw r) hp hpv hrange
    unfold processSearchParams
    simp only [h1]
    cases hs : safeParseSalvaged (salvage (prepRaw r)) with
    | none => simp
    | some out => simpa using safeParseSalvaged_page_none _ _ h2 hs
  · intro sm mv hm hmv hrange
    have h1 : safeParseStrings (prepRaw r) = none := by
      apply safeParseStrings_min_fail
      simp [zodNumOfString, hm, hmv, hrange]
    have h2 : (salvage (prepRaw r)).min = none :=
      salvage_min_none (prepRaw r) hm hmv hrange
    unfold processSearchParams
    simp only [h1]
    cases hs : safeParseSalvaged (salvage (prepRaw r)) with
    | none => simp
    | some out => simpa using safeParseSalvaged_min_none _ _ h2 hs

theorem processSearchParams_out_of_range_drops_witness :
    (prepRaw { page := some "2000" } : RawParams).page = some "2000"
    ∧ jsNumber "2000" = some 2000
    ∧ ¬ ((1:ℚ) ≤ 2000 ∧ (2000:ℚ) ≤ 1000)
    ∧ (processSearchParams { page := some "2000" }).page = 1 :=
  ⟨by decide, by decide, by decide,
    (processSearchParams_out_of_range_drops { page := some "2000" }).1 "2000" 2000
      (by decide) (by decide) (by decide)⟩

/-- C4 counterexample: the input `page = "2000"` yields `page = 1` (the
default after the salvage tier drops the out-of-range value), not the clamped
`page = 1000` the claim requires; all other fields stay at their defaults. -/
theorem processSearchParams_page_2000_cex :
    jsNumber "2000" = some 2000
    ∧ processSearchParams { page := some "2000" } = ({ } : SearchParams)
    ∧ (processSearchParams { page := some "2000" }).page = 1
    ∧ (processSearchParams { page := some "2000" }).page ≠ 1000 := by decide

/-! ### Search service (`searchService.ts`)

The catalog is an explicit finite list of products; prisma queries are
modelled as list operations over it. -/

/-- A catalog item.  Fields the search/filter logic never consults (`images`,
`slug`, `updatedAt`) are omitted; `createdAt` is a timestamp. -/
structure Product where
  id : String
  title : String
  description : String
  price : ℚ
  category : String
  location : String
  createdAt : ℤ
  deriving DecidableEq

/-- One facet entry: a category/location name with its item count. -/
structure Facet where
  name : String
  count : ℕ
  deriving DecidableEq

/-- The price-range facet (also reused as the `priceRange` of `FilterState`). -/
structure PriceRange where
  min : ℚ
  max : ℚ
  deriving DecidableEq

structure Facets where
  categories : List Facet
  locations : List Facet
  priceRange : PriceRange
  deriving DecidableEq

structure SearchResult where
  products : List Product
  totalCount : ℕ
  facets : Facets
  deriving DecidableEq

/-- The `page` field check of the schema on the (non-optional) numeric
`page` of a `SearchParams` object. -/
def zodPageValue (x : ℚ) : Option ℚ :=
  if 1 ≤ x ∧ x ≤ 1000 then some x else none

/-- `validateSearchParams` (`SearchParamsSchema.parse`) applied to an
already-structured `SearchParams` object: string fields re-trimmed and
length-checked, numeric fields range-checked, the `min ≤ max` refinement
applied; `none` models the thrown `ValidationError`. -/
def validateSP (p : SearchParams) : Option SearchParams := do
  let q ← zodString p.q 200
  let category ← zodString p.category 100
  let mn ← zodNumOfNum p.min 0 1000000
  let mx ← zodNumOfNum p.max 0 1000000
  let location ← zodString p.location 100
  let page ← zodPageValue p.page
  let limit ← zodNumOfNum p.limit 1 100
  if minMaxOk mn mx then
    some { q := q, category := category, location := location,
           min := mn, max := mx, page := page, limit := limit }
  else none

/-- The keyword clause of `buildWhereClause`: with a non-empty sanitized
query, `title contains q OR description contains q` (case-insensitive);
an empty sanitized query adds no constraint. -/
def keywordClause (sq : String) (prod : Product) : Bool :=
  if sq = "" then true
  else containsCI prod.title sq || containsCI prod.description sq

/-- The category clause: case-insensitive equality when a truthy (non-empty)
category filter is present. -/
def categoryClause (c : Option String) (prod : Product) : Bool :=
  match c with
  | some v => if v = "" then true else eqCI prod.category v
  | none => true

/-- The location clause, same shape as the category clause. -/
def locationClause (l : Option String) (prod : Product) : Bool :=
  match l with
  | some v => if v = "" then true else eqCI prod.location v
  | none => true

/-- The price clause: `gte min` and `lte max`, absent bounds unconstrained
(`!== undefined` checks, so a 0 bound is still applied). -/
def priceClause (mn mx : Option ℚ) (prod : Product) : Bool :=
  (match mn with | some m => decide (m ≤ prod.price) | none => true)
  && (match mx with | some M => decide (prod.price ≤ M) | none => true)

/-- `buildWhereClause(params, sanitizedQuery)` as a predicate on products. -/
def matchesWhere (p : SearchParams) (sq : String) (prod : Product) : Bool :=
  keywordClause sq prod && categoryClause p.category prod
    && locationClause p.location prod && priceClause p.min p.max prod

/-- Lexicographic strict-or-equal comparison of identifier strings. -/
def charListLe : List Char → List Char → Bool
  | [], _ => true
  | _ :: _, [] => false
  | a :: as, b :: bs => if a = b then charListLe as bs else decide (a < b)

/-- `orderBy: [{createdAt: 'desc'}, {id: 'asc'}]`: newest first, identifier
ascending as the tie-break for deterministic pagination. -/
def productLe (a b : Product) : Bool :=
  decide (b.createdAt < a.createdAt)
    || (a.createdAt == b.createdAt && charListLe a.id.data b.id.data)

/-- `executeProductSearch`: filter with the where clause, sort, then
`skip`/`take` (prisma requires integral skip/take, so the rational page
arithmetic is floored before use). -/
def executeProductSearch (catalog : List Product) (p : SearchParams)
    (sq : String) (skip take : ℕ) : List Product :=
  ((List.insertionSort (fun a b => productLe a b = true)
      (catalog.filter (matchesWhere p sq))).drop skip).take take

/-- `getProductCount`: `prisma.product.count` over the same where clause. -/
def getProductCount (catalog : List Product) (p : SearchParams) (sq : String) : ℕ :=
  (catalog.filter (matchesWhere p sq)).length

/-- The category-facet where clause built inside `generateFacets`: keyword +
location + price filters, the category filter omitted. -/
def categoryFacetWhere (p : SearchParams) (sq : String) (prod : Product) : Bool :=
  keywordClause sq prod && locationClause p.location prod
    && priceClause p.min p.max prod

/-- The location-facet where clause: keyword + category + price filters. -/
def locationFacetWhere (p : SearchParams) (sq : String) (prod : Product) : Bool :=
  keywordClause sq prod && categoryClause p.category prod
    && priceClause p.min p.max prod

/-- The price-range where clause: keyword + category + location filters
(price bounds themselves omitted). -/
def priceFacetWhere (p : SearchParams) (sq : String) (prod : Product) : Bool :=
  keywordClause sq prod && categoryClause p.category prod
    && locationClause p.location prod

/-- Prisma `groupBy` with `_count`, ordered by count descending: one facet
per distinct key value among the matching items. -/
def groupByCounts (l : List Product) (key : Product → String) : List Facet :=
  List.insertionSort (fun a b => b.count ≤ a.count)
    (((l.map key).dedup).map
      (fun n => ⟨n, l.countP (fun prod => key prod == n)⟩))

/-- JS `x || 0` on a nullable number: `null` and `0` give 0. -/
def jsOrZero (v : Option ℚ) : ℚ :=
  match v with
  | none => 0
  | some x => if x = 0 then 0 else x

/-- `getPriceRange`: the `_min`/`_max` price aggregate with `|| 0` applied. -/
def getPriceRange (l : List Product) : PriceRange :=
  { min := jsOrZero ((l.map (fun prod => prod.price)).min?)
    max := jsOrZero ((l.map (fun prod => prod.price)).max?) }

/-- `generateFacets(validatedParams, sanitizedQuery)`. -/
def generateFacets (catalog : List Product) (p : SearchParams) (sq : String) :
    Facets :=
  { categories := groupByCounts (catalog.filter (categoryFacetWhere p sq))
      (fun prod => prod.category)
    locations := groupByCounts (catalog.filter (locationFacetWhere p sq))
      (fun prod => prod.location)
    priceRange := getPriceRange (catalog.filter (priceFacetWhere p sq)) }

/-- JS `x || d` on a number (0 is falsy). -/
def jsOrNum (x : ℚ) (d : ℚ) : ℚ := if x = 0 then d else x

/-- JS `x || d` on an optional number. -/
def jsOrOpt (x : Option ℚ) (d : ℚ) : ℚ :=
  match x with
  | none => d
  | some v => if v = 0 then d else v

/-- `validatedParams.q ? sanitizeSearchQuery(validatedParams.q) : ''`. -/
def sanitizedQueryOf (q : Option String) : String :=
  match q with
  | none => ""
  | some s => if s = "" then "" else sanitizeSearchQuery s

/-- The body of `SearchService.search` after successful validation. -/
def searchCore (catalog : List Product) (vp : SearchParams) : SearchResult :=
  let sq := sanitizedQueryOf vp.q
  let page := jsOrNum vp.page 1
  let limit := jsOrOpt vp.limit 20
  { products := executeProductSearch catalog vp sq
      ((page.floor - 1) * limit.floor).toNat limit.floor.toNat
    totalCount := getProductCount catalog vp sq
    facets := generateFacets catalog vp sq }

/-- `SearchService.search`: validate, then run the item fetch, count and
facet queries; `none` models a thrown `SearchError`. -/
def search (catalog : List Product) (params : SearchParams) :
    Option SearchResult :=
  (validateSP params).map (searchCore catalog)

/-- The count the category facet displays for one name: the `count` of the
entry whose `name` matches exactly, 0 when absent. -/
def facetCountFor (facets : List Facet) (name : String) : ℕ :=
  match facets.find? (fun f => f.name == name) with
  | some f => f.count
  | none => 0

/-! ### Lemmas about `search` -/

theorem containsChars_nil (hay : List Char) : containsChars [] hay = true := by
  unfold containsChars
  simp [isPrefixChars]

theorem containsCI_empty (hay : String) : containsCI hay "" = true :=
  containsChars_nil _

theorem searchCore_eq_of_search {catalog : List Product} {p : SearchParams}
    {res : SearchResult} (hv : validateSP p = some p)
    (hs : search catalog p = some res) : searchCore catalog p = res := by
  unfold search at hs
  rw [hv] at hs
  simpa using hs

theorem mem_search_matches {catalog : List Product} {p : SearchParams}
    {res : SearchResult} {prod : Product}
    (hv : validateSP p = some p) (hs : search catalog p = some res)
    (hm : prod ∈ res.products) :
    matchesWhere p (sanitizedQueryOf p.q) prod = true := by
  rw [← searchCore_eq_of_search hv hs] at hm
  simp only [searchCore] at hm
  unfold executeProductSearch at hm
  have h1 := List.mem_of_mem_take hm
  have h2 := List.mem_of_mem_drop h1
  rw [List.mem_insertionSort] at h2
  exact (List.mem_filter.mp h2).2

/-- C2: every product returned by `search` satisfies the conjunction of all
supplied filter dimensions — the sanitized keyword is a case-insensitive
substring of title or description, a supplied (non-empty) category/location
filter matches case-insensitively, and the price bounds hold — and when no
dimension is supplied every catalog item matches (`totalCount` is the whole
catalog). -/
theorem search_products_satisfy_filters (catalog : List Product)
    (p : SearchParams) (res : SearchResult)
    (hv : validateSP p = some p) (hs : search catalog p = some res) :
    (∀ prod ∈ res.products,
      (∀ s, p.q = some s →
        containsCI prod.title (sanitizeSearchQuery s) = true
        ∨ containsCI prod.description (sanitizeSearchQuery s) = true)
      ∧ (∀ c, p.category = some c → c ≠ "" → eqCI prod.category c = true)
      ∧ (∀ l, p.location = some l → l ≠ "" → eqCI prod.location l = true)
      ∧ (∀ m, p.min = some m → m ≤ prod.price)
      ∧ (∀ M, p.max = some M → prod.price ≤ M))
    ∧ (p.q = none → p.category = none → p.location = none → p.min = none →
        p.max = none → res.totalCount = catalog.length) := by
  constructor
  · intro prod hm
    have hmatch := mem_search_matches hv hs hm
    unfold matchesWhere at hmatch
    simp only [Bool.and_eq_true] at hmatch
    obtain ⟨⟨⟨hK, hC⟩, hL⟩, hP⟩ := hmatch
    refine ⟨?_, ?_, ?_, ?_, ?_⟩
    · intro s hq
      rw [hq] at hK
      by_cases hse : s = ""
      · subst hse
        left
        have he : sanitizeSearchQuery "" = "" := rfl
        rw [he]
        exact containsCI_empty _
      · have hKs : keywordClause (sanitizeSearchQuery s) prod = true := by
          simpa [sanitizedQueryOf, hse] using hK
        by_cases hsq : sanitizeSearchQuery s = ""
        · left
          rw [hsq]
          exact containsCI_empty _
        · unfold keywordClause at hKs
          rw [if_neg hsq] at hKs
          simpa [Bool.or_eq_true] using hKs
    · intro c hc hcne
      rw [hc] at hC
      unfold categoryClause at hC
      simpa [hcne] using hC
    · intro l hl hlne
      rw [hl] at hL
      unfold locationClause at hL
      simpa [hlne] using hL
    · intro m hm'
      unfold priceClause at hP
      rw [hm'] at hP
      simp only [Bool.and_eq_true, decide_eq_true_eq] at hP
      exact hP.1
    · intro M hM'
      unfold priceClause at hP
      rw [hM'] at hP
      simp only [Bool.and_eq_true, decide_eq_true_eq] at hP
      exact hP.2
  · intro h1 h2 h3 h4 h5
    rw [← searchCore_eq_of_search hv hs]
    simp only [searchCore, getProductCount]
    have hall : ∀ prod ∈ catalog,
        matchesWhere p (sanitizedQueryOf p.q) prod = true := by
      intro prod _
      unfold matchesWhere keywordClause categoryClause locationClause priceClause
      simp [h1, h2, h3, h4, h5, sanitizedQueryOf]
    rw [List.filter_eq_self.mpr hall]

theorem search_products_satisfy_filters_witness :
    validateSP
        { category := some "Electronics", min := some 500, max := some 1500,
          page := 1, limit := some 20 }
      = some
        { category := some "Electronics", min := some 500, max := some 1500,
          page := 1, limit := some 20 }
    ∧ search
        [⟨"p1", "Laptop Pro", "Fast machine", 700, "Electronics", "Berlin", 10⟩]
        { category := some "Electronics", min := some 500, max := some 1500,
          page := 1, limit := some 20 }
      = some
        ⟨[⟨"p1", "Laptop Pro", "Fast machine", 700, "Electronics", "Berlin", 10⟩],
          1, ⟨[⟨"Electronics", 1⟩], [⟨"Berlin", 1⟩], ⟨700, 700⟩⟩⟩
    ∧ eqCI "Electronics" "Electronics" = true
    ∧ (500:ℚ) ≤ 700 ∧ (700:ℚ) ≤ 1500 :=
  have h := search_products_satisfy_filters
    [⟨"p1", "Laptop Pro", "Fast machine", 700, "Electronics", "Berlin", 10⟩]
    { category := some "Electronics", min := some 500, max := some 1500,
      page := 1, limit := some 20 }
    ⟨[⟨"p1", "Laptop Pro", "Fast machine", 700, "Electronics", "Berlin", 10⟩],
      1, ⟨[⟨"Electronics", 1⟩], [⟨"Berlin", 1⟩], ⟨700, 700⟩⟩⟩
    (by decide) (by decide)
  have hp := h.1
    ⟨"p1", "Laptop Pro", "Fast machine", 700, "Electronics", "Berlin", 10⟩
    (by decide)
  ⟨by decide, by decide, hp.2.1 "Electronics" rfl (by decide),
    hp.2.2.2.1 500 rfl, hp.2.2.2.2 1500 rfl⟩

/-! ### Lemmas about the price-range facet -/

instance : Std.Antisymm (fun a b : ℚ => a ≤ b) :=
  ⟨fun h₁ h₂ => le_antisymm h₁ h₂⟩

theorem rat_min?_spec {l : List ℚ} {m : ℚ} (h : l.min? = some m) :
    m ∈ l ∧ ∀ b ∈ l, m ≤ b := by
  rw [List.min?_eq_some_iff (fun a => le_refl a) (fun a b => min_choice a b)
    (fun a b c => le_min_iff)] at h
  exact h

theorem rat_max?_spec {l : List ℚ} {m : ℚ} (h : l.max? = some m) :
    m ∈ l ∧ ∀ b ∈ l, b ≤ m := by
  rw [List.max?_eq_some_iff (fun a => le_refl a) (fun a b => max_choice a b)
    (fun a b c => max_le_iff)] at h
  exact h

theorem jsOrZero_some (x : ℚ) : jsOrZero (some x) = x := by
  by_cases h : x = 0 <;> simp [jsOrZero, h]

theorem getPriceRange_spec (l : List Product) :
    (l = [] → getPriceRange l = ⟨0, 0⟩)
    ∧ (l ≠ [] →
      (∃ a ∈ l, (getPriceRange l).min = a.price)
      ∧ (∃ b ∈ l, (getPriceRange l).max = b.price))
    ∧ (∀ prod ∈ l, (getPriceRange l).min ≤ prod.price
        ∧ prod.price ≤ (getPriceRange l).max) := by
  refine ⟨?_, ?_, ?_⟩
  · intro h
    subst h
    rfl
  · intro hne
    have hmap : (l.map (fun prod => prod.price)) ≠ [] := by simpa using hne
    cases hmin : (l.map (fun prod => prod.price)).min? with
    | none => exact absurd (List.min?_eq_none_iff.mp hmin) hmap
    | some m =>
      cases hmax : (l.map (fun prod => prod.price)).max? with
      | none => exact absurd (List.max?_eq_none_iff.mp hmax) hmap
      | some M =>
        obtain ⟨hmem, _⟩ := rat_min?_spec hmin
        obtain ⟨hmem', _⟩ := rat_max?_spec hmax
        rcases List.mem_map.mp hmem with ⟨a, ha, rfl⟩
        rcases List.mem_map.mp hmem' with ⟨b, hb, rfl⟩
        constructor
        · exact ⟨a, ha, by simp [getPriceRange, hmin, jsOrZero_some]⟩
        · exact ⟨b, hb, by simp [getPriceRange, hmax, jsOrZero_some]⟩
  · intro prod hp
    have hpm : prod.price ∈ l.map (fun prod => prod.price) :=
      List.mem_map.mpr ⟨prod, hp, rfl⟩
    have hmap : (l.map (fun prod => prod.price)) ≠ [] := by
      intro hc
      rw [hc] at hpm
      cases hpm
    cases hmin : (l.map (fun prod => prod.price)).min? with
    | none => exact absurd (List.min?_eq_none_iff.mp hmin) hmap
    | some m =>
      cases hmax : (l.map (fun prod => prod.price)).max? with
      | none => exact absurd (List.max?_eq_none_iff.mp hmax) hmap
      | some M =>
        obtain ⟨_, hble⟩ := rat_min?_spec hmin
        obtain ⟨_, hble'⟩ := rat_max?_spec hmax
        constructor
        · simpa [getPriceRange, hmin, jsOrZero_some] using hble _ hpm
        · simpa [getPriceRange, hmax, jsOrZero_some] using hble' _ hpm

/-- C9: the price-range facet of a search result is computed over the items
matching the keyword + category + location filters only (the price bounds are
not applied): if no item matches, both `min` and `max` are 0 (never
null/undefined — the result type is total); otherwise both are attained
prices and bound every matching item's price. -/
theorem search_priceRange_facet (catalog : List Product) (p : SearchParams)
    (res : SearchResult) (hv : validateSP p = some p)
    (hs : search catalog p = some res) :
    (catalog.filter (priceFacetWhere p (sanitizedQueryOf p.q)) = [] →
      res.facets.priceRange = ⟨0, 0⟩)
    ∧ (catalog.filter (priceFacetWhere p (sanitizedQueryOf p.q)) ≠ [] →
      (∃ a ∈ catalog.filter (priceFacetWhere p (sanitizedQueryOf p.q)),
          res.facets.priceRange.min = a.price)
      ∧ (∃ b ∈ catalog.filter (priceFacetWhere p (sanitizedQueryOf p.q)),
          res.facets.priceRange.max = b.price))
    ∧ (∀ prod ∈ catalog.filter (priceFacetWhere p (sanitizedQueryOf p.q)),
        res.facets.priceRange.min ≤ prod.price
        ∧ prod.price ≤ res.facets.priceRange.max) := by
  have hres := searchCore_eq_of_search hv hs
  have hpr : res.facets.priceRange
      = getPriceRange (catalog.filter (priceFacetWhere p (sanitizedQueryOf p.q))) := by
    rw [← hres]
    rfl
  rw [hpr]
  exact getPriceRange_spec _

theorem search_priceRange_facet_witness :
    validateSP { page := 1, limit := some 20 }
      = some { page := 1, limit := some 20 }
    ∧ search
        [⟨"p1", "Laptop Pro", "Fast machine", 700, "Electronics", "Berlin", 10⟩]
        { page := 1, limit := some 20 }
      = some
        ⟨[⟨"p1", "Laptop Pro", "Fast machine", 700, "Electronics", "Berlin", 10⟩],
          1, ⟨[⟨"Electronics", 1⟩], [⟨"Berlin", 1⟩], ⟨700, 700⟩⟩⟩
    ∧ ((⟨"p1", "Laptop Pro", "Fast machine", 700, "Electronics", "Berlin", 10⟩ :
          Product)
        ∈ [⟨"p1", "Laptop Pro", "Fast machine", 700, "Electronics", "Berlin",
          10⟩].filter
          (priceFacetWhere { page := 1, limit := some 20 }
            (sanitizedQueryOf ({ page := 1, limit := some 20 } : SearchParams).q)))
    ∧ (700:ℚ) ≤ 700 ∧ (700:ℚ) ≤ 700 :=
  have h := search_priceRange_facet
    [⟨"p1", "Laptop Pro", "Fast machine", 700, "Electronics", "Berlin", 10⟩]
    { page := 1, limit := some 20 }
    ⟨[⟨"p1", "Laptop Pro", "Fast machine", 700, "Electronics", "Berlin", 10⟩],
      1, ⟨[⟨"Electronics", 1⟩], [⟨"Berlin", 1⟩], ⟨700, 700⟩⟩⟩
    (by decide) (by decide)
  have hb := h.2.2
    ⟨"p1", "Laptop Pro", "Fast machine", 700, "Electronics", "Berlin", 10⟩
    (by decide)
  ⟨by decide, by decide, by decide, hb.1, hb.2⟩

/-! ### Lemmas about the category facet -/

theorem facetCountFor_groupByCounts (l : List Product) (key : Product → String)
    (X : String) :
    facetCountFor (groupByCounts l key) X
      = l.countP (fun prod => key prod == X) := by
  unfold facetCountFor
  cases hf : List.find? (fun f => f.name == X) (groupByCounts l key) with
  | none =>
    rw [List.find?_eq_none] at hf
    have hzero : ∀ prod ∈ l, ¬ (key prod == X) = true := by
      intro prod hp hbeq
      have hXk : X ∈ (l.map key).dedup := by
        rw [List.mem_dedup, List.mem_map]
        exact ⟨prod, hp, by simpa using hbeq⟩
      have hmem : (⟨X, l.countP (fun prod => key prod == X)⟩ : Facet)
          ∈ groupByCounts l key := by
        unfold groupByCounts
        rw [List.mem_insertionSort]
        exact List.mem_map.mpr ⟨X, hXk, rfl⟩
      have := hf _ hmem
      simp at this
    rw [List.countP_eq_zero.mpr hzero]
  | some f =>
    have hp := List.find?_some hf
    have hmem := List.mem_of_find?_eq_some hf
    unfold groupByCounts at hmem
    rw [List.mem_insertionSort] at hmem
    rcases List.mem_map.mp hmem with ⟨n, hn, rfl⟩
    have hnX : n = X := by simpa using hp
    subst hnX
    rfl

theorem validateSP_set_category (p : SearchParams) (X : String)
    (hv : validateSP p = some p) (hXt : trimStr X = X) (hXlen : X.length ≤ 100) :
    validateSP { p with category := some X }
      = some { p with category := some X } := by
  unfold validateSP at hv ⊢
  rcases Option.bind_eq_some.mp hv with ⟨q, hq, hv⟩
  rcases Option.bind_eq_some.mp hv with ⟨c, hc, hv⟩
  rcases Option.bind_eq_some.mp hv with ⟨mn, hmn, hv⟩
  rcases Option.bind_eq_some.mp hv with ⟨mx, hmx, hv⟩
  rcases Option.bind_eq_some.mp hv with ⟨loc, hloc, hv⟩
  rcases Option.bind_eq_some.mp hv with ⟨pg, hpg, hv⟩
  rcases Option.bind_eq_some.mp hv with ⟨lim, hlim, hv⟩
  split at hv
  case isFalse => cases hv
  case isTrue hok =>
    rw [Option.some.injEq] at hv
    have hq' : q = p.q := congrArg SearchParams.q hv
    have hloc' : loc = p.location := congrArg SearchParams.location hv
    have hmn' : mn = p.min := congrArg SearchParams.min hv
    have hmx' : mx = p.max := congrArg SearchParams.max hv
    have hpg' : pg = p.page := congrArg SearchParams.page hv
    have hlim' : lim = p.limit := congrArg SearchParams.limit hv
    have hcat : zodString (some X) 100 = some (some X) := by
      simp [zodString, hXt, hXlen]
    refine Option.bind_eq_some.mpr ⟨q, hq, ?_⟩
    refine Option.bind_eq_some.mpr ⟨some X, hcat, ?_⟩
    refine Option.bind_eq_some.mpr ⟨mn, hmn, ?_⟩
    refine Option.bind_eq_some.mpr ⟨mx, hmx, ?_⟩
    refine Option.bind_eq_some.mpr ⟨loc, hloc, ?_⟩
    refine Option.bind_eq_some.mpr ⟨pg, hpg, ?_⟩
    refine Option.bind_eq_some.mpr ⟨lim, hlim, ?_⟩
    rw [if_pos hok, hq', hloc', hmn', hmx', hpg', hlim']

/-- C1 corrected: when no category filter is active and every catalog item
whose category matches `X` case-insensitively carries exactly the string `X`
(and `X` is a non-empty, trimmed, ≤100-character name), the category facet's
count for `X` equals the `totalCount` of the same search with
`category := X`.  Without the casing hypothesis the claim fails — `groupBy`
keys are case-sensitive while the category filter is case-insensitive, see
the counterexample. -/
theorem categoryFacet_count_eq_totalCount (catalog : List Product)
    (p : SearchParams) (X : String) (res res' : SearchResult)
    (hv : validateSP p = some p) (hcat : p.category = none)
    (hX : X ≠ "") (hXt : trimStr X = X) (hXlen : X.length ≤ 100)
    (hcase : ∀ prod ∈ catalog, eqCI prod.category X = true → prod.category = X)
    (h1 : search catalog p = some res)
    (h2 : search catalog { p with category := some X } = some res') :
    facetCountFor res.facets.categories X = res'.totalCount := by
  have hv' := validateSP_set_category p X hv hXt hXlen
  have hres := searchCore_eq_of_search hv h1
  have hres' := searchCore_eq_of_search hv' h2
  have hcatF : res.facets.categories
      = groupByCounts
          (catalog.filter (categoryFacetWhere p (sanitizedQueryOf p.q)))
          (fun prod => prod.category) := by
    rw [← hres]
    rfl
  have htot : res'.totalCount
      = (catalog.filter (matchesWhere { p with category := some X }
          (sanitizedQueryOf p.q))).length := by
    rw [← hres']
    rfl
  rw [hcatF, htot, facetCountFor_groupByCounts, List.countP_filter,
    ← List.countP_eq_length_filter]
  apply List.countP_congr
  intro prod hp
  have hbe : (prod.category == X) = eqCI prod.category X := by
    by_cases hcx : prod.category = X
    · simp [hcx, eqCI]
    · have hb1 : (prod.category == X) = false := by simpa using hcx
      have hb2 : eqCI prod.category X = false := by
        cases hb : eqCI prod.category X with
        | false => rfl
        | true => exact absurd (hcase prod hp hb) hcx
      rw [hb1, hb2]
  unfold matchesWhere categoryFacetWhere categoryClause
  dsimp only
  rw [if_neg hX, hbe]
  cases keywordClause (sanitizedQueryOf p.q) prod <;>
    cases locationClause p.location prod <;>
      cases priceClause p.min p.max prod <;>
        cases eqCI prod.category X <;> simp

/-- C1 counterexample: with a catalog holding two items of categories `"A"`
and `"a"` and no other filters, the category facet reports count 1 for `"A"`
(the `groupBy` key is the exact, case-sensitive string), while
`search({category: "A"}).totalCount = 2` (the category filter compares
case-insensitively), so the claimed equality fails. -/
theorem categoryFacet_count_cex :
    ({ page := 1, limit := some 20 } : SearchParams).category = none
    ∧ (search [⟨"1", "t", "d", 1, "A", "L", 0⟩, ⟨"2", "t", "d", 1, "a", "L", 0⟩]
        { page := 1, limit := some 20 }).map
        (fun r => facetCountFor r.facets.categories "A") = some 1
    ∧ (search [⟨"1", "t", "d", 1, "A", "L", 0⟩, ⟨"2", "t", "d", 1, "a", "L", 0⟩]
        { category := some "A", page := 1, limit := some 20 }).map
        (fun r => r.totalCount) = some 2
    ∧ (1:ℕ) ≠ 2 := by decide

theorem categoryFacet_count_eq_totalCount_witness :
    validateSP { page := 1, limit := some 20 }
      = some { page := 1, limit := some 20 }
    ∧ ({ page := 1, limit := some 20 } : SearchParams).category = none
    ∧ "Electronics" ≠ ""
    ∧ trimStr "Electronics" = "Electronics"
    ∧ "Electronics".length ≤ 100
    ∧ (∀ prod ∈ [(⟨"p1", "Laptop Pro", "Fast machine", 700, "Electronics",
          "Berlin", 10⟩ : Product)],
        eqCI prod.category "Electronics" = true → prod.category = "Electronics")
    ∧ facetCountFor
        (⟨[⟨"p1", "Laptop Pro", "Fast machine", 700, "Electronics", "Berlin",
            10⟩], 1, ⟨[⟨"Electronics", 1⟩], [⟨"Berlin", 1⟩], ⟨700, 700⟩⟩⟩ :
          SearchResult).facets.categories "Electronics"
      = (⟨[⟨"p1", "Laptop Pro", "Fast machine", 700, "Electronics", "Berlin",
            10⟩], 1, ⟨[⟨"Electronics", 1⟩], [⟨"Berlin", 1⟩], ⟨700, 700⟩⟩⟩ :
          SearchResult).totalCount :=
  ⟨by decide, by decide, by decide, by decide, by decide, by decide,
    categoryFacet_count_eq_totalCount
      [⟨"p1", "Laptop Pro", "Fast machine", 700, "Electronics", "Berlin", 10⟩]
      { page := 1, limit := some 20 } "Electronics"
      ⟨[⟨"p1", "Laptop Pro", "Fast machine", 700, "Electronics", "Berlin", 10⟩],
        1, ⟨[⟨"Electronics", 1⟩], [⟨"Berlin", 1⟩], ⟨700, 700⟩⟩⟩
      ⟨[⟨"p1", "Laptop Pro", "Fast machine", 700, "Electronics", "Berlin", 10⟩],
        1, ⟨[⟨"Electronics", 1⟩], [⟨"Berlin", 1⟩], ⟨700, 700⟩⟩⟩
      (by decide) (by decide) (by decide) (by decide) (by decide) (by decide)
      (by decide) (by decide)⟩

/-! ### Filter service (`FilterService`)

URL ↔ filter-state conversions.  The `min`/`max` query parameters carry a
serialized number; JS `Number.prototype.toString` / `parseFloat` round-trip
numbers exactly, so the string channel for them is modelled by the rational
value itself. -/

/-- The UI-facing filter state (empty-string / zero defaults instead of
optionals). -/
structure FilterState where
  query : String
  category : String
  location : String
  priceRange : PriceRange
  deriving DecidableEq

/-- URL search parameters handled by the filter service. -/
structure UrlParams where
  q : Option String := none
  category : Option String := none
  location : Option String := none
  min : Option ℚ := none
  max : Option ℚ := none
  deriving DecidableEq

/-- `FilterService.urlParamsToFilterState`: absent keys become `''` before
sanitizing (`getFirstValue` yields `''`), and a present truthy price value is
parsed and clamped via `sanitizeNumber(·, 0, 1000000)` (absent gives 0). -/
def urlParamsToFilterState (params : UrlParams) : FilterState :=
  { query := sanitizeString (params.q.getD "") 200
    category := sanitizeString (params.category.getD "") 100
    location := sanitizeString (params.location.getD "") 100
    priceRange :=
      { min := match params.min with
          | some v => sanitizeNumber v 0 1000000
          | none => 0
        max := match params.max with
          | some v => sanitizeNumber v 0 1000000
          | none => 0 } }

/-- `FilterService.filterStateToUrlParams`: trimmed non-empty strings and
strictly positive prices are serialized; everything else is omitted. -/
def filterStateToUrlParams (filters : FilterState) : UrlParams :=
  { q := if trimStr filters.query ≠ "" then some (trimStr filters.query) else none
    category := if trimStr filters.category ≠ ""
      then some (trimStr filters.category) else none
    location := if trimStr filters.location ≠ ""
      then some (trimStr filters.location) else none
    min := if filters.priceRange.min > 0 then some filters.priceRange.min else none
    max := if filters.priceRange.max > 0 then some filters.priceRange.max else none }

theorem sanitizeString_of_trimmed {s : String} (ht : trimStr s = s) {n : ℕ}
    (hl : s.length ≤ n) : sanitizeString s n = s := by
  unfold sanitizeString
  rw [ht, List.take_of_length_le hl]

/-- C10: for every `FilterState` whose text fields are already trimmed and
within their length caps and whose price bounds lie in `[0, 1000000]`,
serializing to URL parameters and parsing back reproduces the same
`FilterState` (omitted empty strings come back as `''`, omitted zero prices
come back as 0). -/
theorem urlParams_filterState_roundtrip (f : FilterState)
    (hq : trimStr f.query = f.query) (hql : f.query.length ≤ 200)
    (hc : trimStr f.category = f.category) (hcl : f.category.length ≤ 100)
    (hl : trimStr f.location = f.location) (hll : f.location.length ≤ 100)
    (hm0 : 0 ≤ f.priceRange.min) (hm1 : f.priceRange.min ≤ 1000000)
    (hM0 : 0 ≤ f.priceRange.max) (hM1 : f.priceRange.max ≤ 1000000) :
    urlParamsToFilterState (filterStateToUrlParams f) = f := by
  obtain ⟨query, category, location, pr⟩ := f
  obtain ⟨mn, mx⟩ := pr
  dsimp only at hq hql hc hcl hl hll hm0 hm1 hM0 hM1
  unfold filterStateToUrlParams urlParamsToFilterState
  dsimp only
  simp only [FilterState.mk.injEq, PriceRange.mk.injEq]
  refine ⟨?_, ?_, ?_, ?_, ?_⟩
  · split_ifs with h
    · rw [Option.getD_some, hq]
      exact sanitizeString_of_trimmed hq hql
    · rw [not_not, hq] at h
      subst h
      rfl
  · split_ifs with h
    · rw [Option.getD_some, hc]
      exact sanitizeString_of_trimmed hc hcl
    · rw [not_not, hc] at h
      subst h
      rfl
  · split_ifs with h
    · rw [Option.getD_some, hl]
      exact sanitizeString_of_trimmed hl hll
    · rw [not_not, hl] at h
      subst h
      rfl
  · split_ifs with h
    · show sanitizeNumber mn 0 1000000 = mn
      unfold sanitizeNumber
      rw [min_eq_right hm1, max_eq_right hm0]
    · show (0:ℚ) = mn
      exact (le_antisymm (not_lt.mp h) hm0).symm
  · split_ifs with h
    · show sanitizeNumber mx 0 1000000 = mx
      unfold sanitizeNumber
      rw [min_eq_right hM1, max_eq_right hM0]
    · show (0:ℚ) = mx
      exact (le_antisymm (not_lt.mp h) hM0).symm

theorem urlParams_filterState_roundtrip_witness :
    trimStr "laptop" = "laptop" ∧ "laptop".length ≤ 200
    ∧ trimStr "Electronics" = "Electronics" ∧ "Electronics".length ≤ 100
    ∧ trimStr "" = "" ∧ "".length ≤ 100
    ∧ (0:ℚ) ≤ 0 ∧ (0:ℚ) ≤ 1000000 ∧ (0:ℚ) ≤ 1500 ∧ (1500:ℚ) ≤ 1000000
    ∧ urlParamsToFilterState
        (filterStateToUrlParams ⟨"laptop", "Electronics", "", ⟨0, 1500⟩⟩)
      = ⟨"laptop", "Electronics", "", ⟨0, 1500⟩⟩ :=
  ⟨by decide, by decide, by decide, by decide, by decide, by decide, by decide,
    by decide, by decide, by decide,
    urlParams_filterState_roundtrip ⟨"laptop", "Electronics", "", ⟨0, 1500⟩⟩
      (by decide) (by decide) (by decide) (by decide) (by decide) (by decide)
      (by decide) (by decide) (by decide) (by decide)⟩
